import Mathlib

/-!
Verification of the structural runtime type-conformance checker
(`src/runtime_check.py`): a shallow embedding of the descriptor model,
the recursive conformance predicate `_check`, and the decorator
`runtime_check`, together with theorems settling the specified
properties.
-/

namespace RuntimeCheck

/-- The runtime classes the checker can name in a plain-class annotation.
These are the builtin classes relevant to the module (`int`, `bool`,
`str`, `float`, `list`, `set`, `tuple`, `dict`, `NoneType`, `object`). -/
inductive PyClass where
  | intC
  | boolC
  | strC
  | floatC
  | listC
  | setC
  | tupleC
  | dictC
  | noneC
  | objectC
deriving DecidableEq, Repr, Fintype

/-- One positional slot of a `tuple[...]` annotation as returned by
`get_args`: either a nested annotation or the literal `Ellipsis`. -/
inductive TupItem (α : Type) where
  | ann (a : α)
  | ell
deriving Repr

/-- A type annotation as the `_check` function dissects it via
`get_origin` / `get_args`:
* `cls c` — a plain class (origin `None`, `isinstance` succeeds);
* `anyForm` — `typing.Any` or another special form that is not a class,
  so `isinstance` raises `TypeError` and the value is accepted;
* `unionA opts` — `Union[...]` / PEP 604 `X | Y` (origin `Union`/`UnionType`);
* `listA args` / `setA args` — `list[T]` / `set[T]` (`args` may be empty,
  as for bare `typing.List`);
* `tupleA items` — `tuple[...]` with its positional `get_args` items;
* `dictA kv` — `dict[K, V]`, or bare `typing.Dict` when `kv = none`;
* `otherOrigin` — any other parameterized origin, which falls through to
  the final permissive `return True`. -/
inductive Anno where
  | cls (c : PyClass)
  | anyForm
  | unionA (opts : List Anno)
  | listA (args : List Anno)
  | setA (args : List Anno)
  | tupleA (items : List (TupItem Anno))
  | dictA (kv : Option (Anno × Anno))
  | otherOrigin
deriving Repr

/-- Runtime values the checker examines: Python ints, bools, strings,
`None`, lists, sets, tuples and dicts.  A set is modelled by the list of
its elements and a dict by its association list of key/value pairs. -/
inductive Value where
  | vInt (n : Int)
  | vBool (b : Bool)
  | vStr (s : String)
  | vNone
  | vList (xs : List Value)
  | vSet (xs : List Value)
  | vTuple (xs : List Value)
  | vDict (pairs : List (Value × Value))
deriving Repr

/-- `type(v)`: the runtime class of a value. -/
def typeName : Value → PyClass
  | .vInt _ => .intC
  | .vBool _ => .boolC
  | .vStr _ => .strC
  | .vNone => .noneC
  | .vList _ => .listC
  | .vSet _ => .setC
  | .vTuple _ => .tupleC
  | .vDict _ => .dictC

/-- The builtin subclass relation between the modelled classes:
reflexive, every class is a subclass of `object`, and `bool` is a
subclass of `int` (as in CPython). -/
def isSubclass (c d : PyClass) : Bool :=
  c == d || d == .objectC || (c == .boolC && d == .intC)

/-- `isinstance(v, c)` for a plain class `c`: true iff the runtime class
of `v` is `c` or a subclass of `c`. -/
def isinst (v : Value) (c : PyClass) : Bool :=
  isSubclass (typeName v) c

/-- Termination bookkeeping for `check`: the `dict` branch with empty
`get_args` recurses on the fresh annotation `object`, which is not a
subterm, so that branch is given extra measure. -/
def pen : Anno → Nat
  | .dictA none => 1
  | _ => 0

mutual
/-- The conformance predicate `_check(value, anno)` of
`src/runtime_check.py`, branch for branch:

* plain class: `isinstance(value, anno)`, and `True` when `isinstance`
  raises `TypeError` (`anyForm`);
* `Union`/`UnionType` origin: `any(_check(value, opt) for opt in args)`;
* `list` / `set` origin: `False` unless the value is a list / set, then
  `not args or all(_check(v, args[0]) for v in value)`;
* `tuple` origin: `False` unless the value is a tuple; `True` for empty
  `args`; `Tuple[T, ...]` (two args, second `Ellipsis`) checks every
  element against the first arg; otherwise a strict pairwise zip that is
  `False` on a length mismatch (`zip(..., strict=True)` raising
  `ValueError`);
* `dict` origin: `False` unless the value is a dict, then
  `k_t, v_t = args or (object, object)` and every key/value pair is
  checked;
* any other origin: the permissive fallback `return True`. -/
def check (v : Value) (a : Anno) : Bool :=
  match a with
  | .cls c => isinst v c
  | .anyForm => true
  | .unionA [] => false
  | .unionA (o :: os) => check v o || check v (.unionA os)
  | .listA args =>
    match v with
    | .vList xs =>
      match args with
      | [] => true
      | t :: _ => xs.all (fun x => check x t)
    | _ => false
  | .setA args =>
    match v with
    | .vSet xs =>
      match args with
      | [] => true
      | t :: _ => xs.all (fun x => check x t)
    | _ => false
  | .tupleA items =>
    match v with
    | .vTuple xs =>
      match items with
      | [] => true
      | [.ann t, .ell] => xs.all (fun x => check x t)
      | [.ell, .ell] => xs.all (fun _ => true)
      | its => zipAllStrict xs its
    | _ => false
  | .dictA none =>
    match v with
    | .vDict pairs =>
      pairs.all (fun p => check p.1 (.cls .objectC) && check p.2 (.cls .objectC))
    | _ => false
  | .dictA (some (kt, vt)) =>
    match v with
    | .vDict pairs => pairs.all (fun p => check p.1 kt && check p.2 vt)
    | _ => false
  | .otherOrigin => true
termination_by sizeOf a + pen a
decreasing_by
  all_goals simp [pen]
  all_goals simp_arith
  all_goals (split <;> omega)

/-- `all(_check(v, a) for v, a in zip(value, args, strict=True))` with the
`ValueError` of a length mismatch caught and turned into `False`; a
positional `Ellipsis` item is accepted (as `_check` accepts it, since
`isinstance` raises `TypeError` on it). -/
def zipAllStrict (xs : List Value) (items : List (TupItem Anno)) : Bool :=
  match xs, items with
  | [], [] => true
  | x :: xs', it :: its =>
    (match it with
     | .ann a => check x a
     | .ell => true) && zipAllStrict xs' its
  | _, _ => false
termination_by sizeOf items
decreasing_by
  all_goals simp [pen]
  all_goals simp_arith
  all_goals (split <;> omega)
end

/-! ## Printable representations used in the error messages -/

/-- A single-quote character, used by the message formatting below. -/
def sq : String := String.singleton (Char.ofNat 39)

/-- The printable name of a builtin class. -/
def className : PyClass → String
  | .intC => "int"
  | .boolC => "bool"
  | .strC => "str"
  | .floatC => "float"
  | .listC => "list"
  | .setC => "set"
  | .tupleC => "tuple"
  | .dictC => "dict"
  | .noneC => "NoneType"
  | .objectC => "object"

/-- `repr(type(v))`, as interpolated by `type(val)!r` in the messages. -/
def reprType (v : Value) : String :=
  "<class " ++ sq ++ className (typeName v) ++ sq ++ ">"

mutual
/-- `repr(v)` for the modelled values, as interpolated by `val!r`. -/
def reprVal : Value → String
  | .vInt n => toString n
  | .vBool b => if b then "True" else "False"
  | .vStr s => sq ++ s ++ sq
  | .vNone => "None"
  | .vList xs => "[" ++ reprVals xs ++ "]"
  | .vSet xs =>
    if xs.isEmpty then "set()" else "\x7b" ++ reprVals xs ++ "\x7d"
  | .vTuple xs =>
    match xs with
    | [x] => "(" ++ reprVal x ++ ",)"
    | other => "(" ++ reprVals other ++ ")"
  | .vDict ps => "\x7b" ++ reprPairs ps ++ "\x7d"
termination_by v => sizeOf v
decreasing_by all_goals (simp_arith; try omega)

/-- Comma-separated `repr` of a list of values. -/
def reprVals : List Value → String
  | [] => ""
  | [x] => reprVal x
  | x :: xs => reprVal x ++ ", " ++ reprVals xs
termination_by xs => sizeOf xs
decreasing_by all_goals (simp_arith; try omega)

/-- Comma-separated `repr` of the key/value pairs of a dict. -/
def reprPairs : List (Value × Value) → String
  | [] => ""
  | [(k, w)] => reprVal k ++ ": " ++ reprVal w
  | (k, w) :: ps => reprVal k ++ ": " ++ reprVal w ++ ", " ++ reprPairs ps
termination_by ps => sizeOf ps
decreasing_by all_goals (simp_arith; try omega)
end

mutual
/-- `repr(anno)`, as interpolated by `anno!r` in the messages. -/
def reprAnno : Anno → String
  | .cls c => "<class " ++ sq ++ className c ++ sq ++ ">"
  | .anyForm => "typing.Any"
  | .unionA opts => "typing.Union[" ++ reprAnnos opts ++ "]"
  | .listA args => "list[" ++ reprAnnos args ++ "]"
  | .setA args => "set[" ++ reprAnnos args ++ "]"
  | .tupleA items => "tuple[" ++ reprItems items ++ "]"
  | .dictA none => "typing.Dict"
  | .dictA (some (kt, vt)) =>
    "dict[" ++ reprAnno kt ++ ", " ++ reprAnno vt ++ "]"
  | .otherOrigin => "<unsupported>"
termination_by a => sizeOf a
decreasing_by all_goals (simp_arith; try omega)

/-- Comma-separated `repr` of a list of annotations. -/
def reprAnnos : List Anno → String
  | [] => ""
  | [a] => reprAnno a
  | a :: as => reprAnno a ++ ", " ++ reprAnnos as
termination_by l => sizeOf l
decreasing_by all_goals (simp_arith; try omega)

/-- Comma-separated `repr` of the items of a `tuple[...]` annotation. -/
def reprItems : List (TupItem Anno) → String
  | [] => ""
  | [.ell] => "..."
  | [.ann a] => reprAnno a
  | .ell :: its => "..., " ++ reprItems its
  | .ann a :: its => reprAnno a ++ ", " ++ reprItems its
termination_by l => sizeOf l
decreasing_by all_goals (simp_arith; try omega)
end

/-! ## The call contract enforcer (`runtime_check` / `wrapper`) -/

/-- The errors the wrapper can raise.  In Python every failure —
signature binding, argument conformance and return conformance alike —
is an instance of the single builtin exception class `TypeError`,
carrying only a message string. -/
inductive PyErr where
  | typeError (msg : String)
deriving DecidableEq, Repr

/-- The exception class of an error, the only "kind" channel a caller
catching exceptions can dispatch on. -/
def exnClass : PyErr → String
  | .typeError _ => "TypeError"

/-- The message carried by an error. -/
def msgOf : PyErr → String
  | .typeError m => m

/-- Message of the binding failure for surplus positional arguments. -/
def tooManyMsg : String := "too many positional arguments"

/-- Message of the binding failure for a parameter bound both
positionally and by keyword. -/
def multipleMsg (name : String) : String :=
  "multiple values for argument " ++ sq ++ name ++ sq

/-- Message of the binding failure for a required parameter that
received no value. -/
def missingMsg (name : String) : String :=
  "missing a required argument: " ++ sq ++ name ++ sq

/-- Message of the binding failure for a keyword argument that names no
declared parameter. -/
def unexpectedMsg (name : String) : String :=
  "got an unexpected keyword argument " ++ sq ++ name ++ sq

/-- The message of the `TypeError` raised for a non-conforming argument:
`f"Argument '{name}' expected {anno!r}, got {type(val)!r} with value={val!r}"`. -/
def argMsg (name : String) (anno : Anno) (val : Value) : String :=
  "Argument " ++ sq ++ name ++ sq ++ " expected " ++ reprAnno anno ++
    ", got " ++ reprType val ++ " with value=" ++ reprVal val

/-- The message of the `TypeError` raised for a non-conforming return
value: `f"Return expected {ret_anno!r}, got {type(result)!r} with value={result!r}"`. -/
def retMsg (anno : Anno) (val : Value) : String :=
  "Return expected " ++ reprAnno anno ++ ", got " ++ reprType val ++
    " with value=" ++ reprVal val

/-- A declared parameter of the wrapped function: its name and its
optional default value.  Only positional-or-keyword parameters occur in
the modelled signatures. -/
structure Param where
  name : String
  default : Option Value

/-- A wrapped function: the signature read by `inspect.signature`, the
annotations read by `get_type_hints` (with the key `"return"` for the
return annotation), and the underlying computation.  The computation is
modelled as a function of the bound arguments together with an explicit
state of type `σ` standing for its side effects. -/
structure Contract (σ : Type) where
  params : List Param
  hints : List (String × Anno)
  impl : List (String × Value) → σ → Value × σ

/-- `sig.bind(*args, **kwargs)` restricted to positional-or-keyword
parameters: assigns positional arguments to parameters in declaration
order, then keyword arguments by name, and raises `TypeError` on a
binding failure (surplus positional argument, parameter bound twice,
missing required parameter, unknown keyword).  On success it returns the
bound `(name, value)` pairs in declaration order, without defaults. -/
def sigBind (params : List Param) (pos : List Value)
    (kw : List (String × Value)) : Except PyErr (List (String × Value)) :=
  if params.length < pos.length then
    .error (.typeError tooManyMsg)
  else
    match (params.take pos.length).find?
        (fun p => (List.lookup p.name kw).isSome) with
    | some p => .error (.typeError (multipleMsg p.name))
    | none =>
      match (params.drop pos.length).find?
          (fun p => (List.lookup p.name kw).isNone && p.default.isNone) with
      | some p => .error (.typeError (missingMsg p.name))
      | none =>
        match kw.find? (fun q => params.all (fun p => p.name != q.1)) with
        | some q => .error (.typeError (unexpectedMsg q.1))
        | none =>
          .ok ((params.zip pos).map (fun pv => (pv.1.name, pv.2)) ++
            (params.drop pos.length).filterMap
              (fun p => (List.lookup p.name kw).map (fun w => (p.name, w))))

/-- `bound.apply_defaults()`: rebuilds the bound arguments in signature
order, filling every unbound parameter from its declared default. -/
def applyDefaults (params : List Param)
    (bound : List (String × Value)) : List (String × Value) :=
  params.filterMap (fun p =>
    match List.lookup p.name bound with
    | some w => some (p.name, w)
    | none => p.default.map (fun d => (p.name, d)))

/-- `bound = sig.bind(*args, **kwargs); bound.apply_defaults()`: the
bound arguments the wrapper iterates over, in declaration order. -/
def bindApplyDefaults (params : List Param) (pos : List Value)
    (kw : List (String × Value)) : Except PyErr (List (String × Value)) :=
  (sigBind params pos kw).map (applyDefaults params)

/-- The wrapper loop `for name, val in bound.arguments.items(): ...`
searching for the first bound argument whose annotation exists and whose
`_check` fails; unannotated parameters are skipped. -/
def findArgViolation (hints : List (String × Anno))
    (bound : List (String × Value)) : Option (String × Anno × Value) :=
  bound.findSome? (fun nv =>
    match List.lookup nv.1 hints with
    | some a => if check nv.2 a then none else some (nv.1, a, nv.2)
    | none => none)

/-- The decorated call `wrapper(*args, **kwargs)`: bind the arguments and
apply defaults, check every annotated bound argument in declaration
order, invoke the underlying computation only if all checks pass, then
check the result against the `"return"` annotation when one exists.
A pure Python function applies the same binding to `*args, **kwargs`
itself, so the computation receives the bound arguments. -/
def wrapper {σ : Type} (c : Contract σ) (pos : List Value)
    (kw : List (String × Value)) (s : σ) : Except PyErr Value × σ :=
  match bindApplyDefaults c.params pos kw with
  | .error e => (.error e, s)
  | .ok bound =>
    match findArgViolation c.hints bound with
    | some nav => (.error (.typeError (argMsg nav.1 nav.2.1 nav.2.2)), s)
    | none =>
      let rs := c.impl bound s
      match List.lookup "return" c.hints with
      | some ret =>
        if check rs.1 ret then (.ok rs.1, rs.2)
        else (.error (.typeError (retMsg ret rs.1)), rs.2)
      | none => (.ok rs.1, rs.2)

/-- True iff binding succeeds and every annotated bound argument passes
its conformance check — exactly the condition under which the wrapper
reaches the call of the underlying computation. -/
def checksPass (params : List Param) (hints : List (String × Anno))
    (pos : List Value) (kw : List (String × Value)) : Bool :=
  match bindApplyDefaults params pos kw with
  | .error _ => false
  | .ok bound => (findArgViolation hints bound).isNone

/-- Instrumented contract over a pure computation `g`: the state counts
how many times the underlying computation has been invoked. -/
def counting (params : List Param) (hints : List (String × Anno))
    (g : List (String × Value) → Value) : Contract Nat :=
  ⟨params, hints, fun bound n => (g bound, n + 1)⟩

/-- Whether a single bound argument violates its annotation (no
annotation means no check, hence no violation). -/
def violatesB (hints : List (String × Anno)) (nv : String × Value) : Bool :=
  match List.lookup nv.1 hints with
  | some a => !check nv.2 a
  | none => false

/-! ## Concrete contracts used to exercise the enforcer -/

/-- `def f(x): ...` wrapped: one required unannotated parameter, so a
call with no arguments fails at binding. -/
def cBindDemo : Contract Unit :=
  ⟨[⟨"x", none⟩], [], fun _ s => (.vNone, s)⟩

/-- `def f(x: str): ...` wrapped: a non-string argument fails the
argument conformance check. -/
def cArgDemo : Contract Unit :=
  ⟨[⟨"x", none⟩], [("x", .cls .strC)], fun _ s => (.vNone, s)⟩

/-- `def f() -> str: return 0` wrapped: the returned int fails the
return conformance check. -/
def cRetDemo : Contract Unit :=
  ⟨[], [("return", .cls .strC)], fun _ s => (.vInt 0, s)⟩

/-- `def f(x: int, y: str): ...` wrapped: used to observe which failing
parameter a violation names. -/
def cTwoDemo : Contract Unit :=
  ⟨[⟨"x", none⟩, ⟨"y", none⟩],
    [("x", .cls .intC), ("y", .cls .strC)], fun _ s => (.vNone, s)⟩

/-- `def f(x: int = "oops"): ...` wrapped: the declared default violates
the annotation of its own parameter. -/
def cDefDemo : Contract Unit :=
  ⟨[⟨"x", some (Value.vStr "oops")⟩], [("x", .cls .intC)],
    fun _ s => (.vInt 0, s)⟩

/-- `def f(x): return (x,)` wrapped with no annotations at all. -/
def cNoAnnoDemo : Contract Unit :=
  ⟨[⟨"x", none⟩], [], fun b s => (.vTuple (b.map Prod.snd), s)⟩

/-! ## Helper lemmas about the checker -/

/-- The `Union` branch computes the disjunction over the options. -/
theorem check_unionA_any (v : Value) (opts : List Anno) :
    check v (.unionA opts) = opts.any (fun o => check v o) := by
  induction opts with
  | nil => simp [check]
  | cons o os ih => simp [check, ih]

/-- The strict pairwise zip fails whenever the lengths differ. -/
theorem zipAllStrict_length_ne (xs : List Value) (items : List (TupItem Anno))
    (h : xs.length ≠ items.length) : zipAllStrict xs items = false := by
  induction xs generalizing items with
  | nil =>
    cases items with
    | nil => simp at h
    | cons it its => simp [zipAllStrict]
  | cons x xs ih =>
    cases items with
    | nil => simp [zipAllStrict]
    | cons it its =>
      have h' : xs.length ≠ its.length := by simpa using h
      rw [zipAllStrict.eq_def]
      simp [ih its h']

/-! ## Claims about the conformance checker -/

/-- Claim C1, counterexample: the claim demands that a primitive
descriptor accept exactly its own runtime kind and in particular that a
boolean value is rejected by an integer descriptor, but `_check` uses
`isinstance`, and in CPython `bool` is a subclass of `int`: the boolean
`True` matches the `int` descriptor although its runtime kind is `bool`,
not `int`. -/
theorem c1_counterexample :
    check (Value.vBool true) (Anno.cls PyClass.intC) = true ∧
      typeName (Value.vBool true) ≠ PyClass.intC := by
  constructor
  · simp [check, isinst, isSubclass, typeName]
  · decide

/-- Claim C1, amended: for every value `v` and primitive descriptor `P`,
`matches(v, P)` holds iff the runtime kind of `v` equals `P`, or `v` is
a boolean and `P` is the integer class (the host subclass relation
conflates them), or `P` is `object` (every value is an instance of
`object`).  Numeric kinds other than the bool/int conflation are not
widened. -/
theorem c1_primitive_isinstance_semantics (v : Value) (P : PyClass) :
    check v (.cls P) = true ↔
      (typeName v = P ∨ (typeName v = .boolC ∧ P = .intC) ∨ P = .objectC) := by
  have h : ∀ c d : PyClass, (isSubclass c d = true) ↔
      (c = d ∨ (c = .boolC ∧ d = .intC) ∨ d = .objectC) := by decide
  have e : check v (.cls P) = isinst v P := by simp [check]
  rw [e, isinst]
  exact h (typeName v) P

/-- Claim C4: a fixed-arity two-element tuple descriptor accepts a
2-tuple `(a, b)` exactly when each component matches its positional
descriptor, and rejects a tuple of any other length outright, however
its elements conform. -/
theorem c4_fixed_tuple (A B : Anno) :
    (∀ a b : Value,
      check (.vTuple [a, b]) (.tupleA [.ann A, .ann B]) =
        (check a A && check b B)) ∧
      ∀ xs : List Value, xs.length ≠ 2 →
        check (.vTuple xs) (.tupleA [.ann A, .ann B]) = false := by
  constructor
  · intro a b
    simp [check, zipAllStrict]
  · intro xs hxs
    have e : check (.vTuple xs) (.tupleA [.ann A, .ann B]) =
        zipAllStrict xs [.ann A, .ann B] := by
      simp [check]
    rw [e]
    exact zipAllStrict_length_ne xs _ (by simpa using hxs)

/-- Witness for C4 at concrete inputs: the 1-tuple `(1,)` is rejected by
`tuple[int, int]`, and the 2-tuple `(1, 2)` reduces to the conjunction
of its component checks. -/
theorem c4_fixed_tuple_witness :
    check (Value.vTuple [Value.vInt 1])
        (.tupleA [.ann (Anno.cls .intC), .ann (Anno.cls .intC)]) = false ∧
      check (Value.vTuple [Value.vInt 1, Value.vInt 2])
        (.tupleA [.ann (Anno.cls .intC), .ann (Anno.cls .intC)]) =
        (check (Value.vInt 1) (Anno.cls .intC) &&
          check (Value.vInt 2) (Anno.cls .intC)) :=
  ⟨(c4_fixed_tuple _ _).2 _ (by decide), (c4_fixed_tuple _ _).1 _ _⟩

/-- Claim C5: a union of two descriptors matches exactly the disjunction
of the two matches, and the boolean result of a union is invariant under
any permutation of its options (evaluation order affects only cost). -/
theorem c5_union (v : Value) (A B : Anno) :
    check v (.unionA [A, B]) = (check v A || check v B) ∧
      ∀ opts opts' : List Anno, opts.Perm opts' →
        check v (.unionA opts) = check v (.unionA opts') := by
  refine ⟨by simp [check], ?_⟩
  intro opts opts' h
  rw [check_unionA_any, check_unionA_any]
  cases e1 : opts.any (fun o => check v o) <;>
    cases e2 : opts'.any (fun o => check v o) <;> try rfl
  · rw [List.any_eq_false] at e1
    rw [List.any_eq_true] at e2
    obtain ⟨x, hx, hp⟩ := e2
    exact absurd hp (by simpa using e1 x (h.mem_iff.mpr hx))
  · rw [List.any_eq_false] at e2
    rw [List.any_eq_true] at e1
    obtain ⟨x, hx, hp⟩ := e1
    exact absurd hp (by simpa using e2 x (h.mem_iff.mp hx))

/-- Witness for C5 at a concrete input: `3` matches `Union[str, int]`
and swapping the options leaves the boolean result unchanged. -/
theorem c5_union_witness :
    check (Value.vInt 3) (.unionA [Anno.cls .strC, Anno.cls .intC]) =
        check (Value.vInt 3) (.unionA [Anno.cls .intC, Anno.cls .strC]) ∧
      check (Value.vInt 3) (.unionA [Anno.cls .strC, Anno.cls .intC]) = true :=
  ⟨(c5_union (Value.vInt 3) (Anno.cls .strC) (Anno.cls .intC)).2 _ _
      (List.Perm.swap _ _ _),
    by simp [check, isinst, isSubclass, typeName]⟩

/-- Claim C6: a list value matches `ListOf(E)` exactly when every
element matches `E` (vacuously true for the empty list, whatever `E`
is), and any value whose runtime kind is not `list` is rejected. -/
theorem c6_list_of (E : Anno) :
    (∀ xs : List Value,
      check (.vList xs) (.listA [E]) = xs.all (fun x => check x E)) ∧
      check (Value.vList []) (.listA [E]) = true ∧
      ∀ v : Value, typeName v ≠ .listC → check v (.listA [E]) = false := by
  refine ⟨fun xs => by simp [check], by simp [check], ?_⟩
  intro v hv
  cases v <;> first
    | exact absurd rfl hv
    | simp [check]

/-- Witness for C6 at concrete inputs: `[1, 2]` against `list[int]`
reduces to the elementwise conjunction, the empty list passes, and the
non-list `7` is rejected. -/
theorem c6_list_of_witness :
    check (Value.vList [Value.vInt 1, Value.vInt 2])
        (.listA [Anno.cls .intC]) =
        [Value.vInt 1, Value.vInt 2].all (fun x => check x (Anno.cls .intC)) ∧
      check (Value.vList []) (.listA [Anno.cls .intC]) = true ∧
      check (Value.vInt 7) (.listA [Anno.cls .intC]) = false :=
  ⟨(c6_list_of _).1 _, (c6_list_of _).2.1,
    (c6_list_of (Anno.cls .intC)).2.2 (Value.vInt 7) (by decide)⟩

/-- Claim C7: a descriptor the checker cannot interpret always matches:
both the origin-`None` special forms on which `isinstance` raises (such
as `typing.Any`) and the unrecognized parameterized origins that reach
the final fallback accept every value, so an unrecognized descriptor
never blocks a call. -/
theorem c7_unknown_matches (v : Value) :
    check v Anno.anyForm = true ∧ check v Anno.otherOrigin = true := by
  constructor <;> simp [check]

/-! ## Helper lemmas about the enforcer -/

/-- An association-list lookup misses iff no entry has the key. -/
theorem lookup_eq_none_iff {β : Type} (k : String) (l : List (String × β)) :
    List.lookup k l = none ↔ ∀ q ∈ l, k ≠ q.1 := by
  induction l with
  | nil => simp
  | cons q qs ih =>
    obtain ⟨k', w⟩ := q
    by_cases he : k = k'
    · subst he
      simp [List.lookup_cons]
    · have hne : (k == k') = false := beq_eq_false_iff_ne.mpr he
      simp [List.lookup_cons, hne, ih, he]

/-- No argument violation is found iff every bound argument passes. -/
theorem findArgViolation_eq_none_iff (hints : List (String × Anno))
    (bound : List (String × Value)) :
    findArgViolation hints bound = none ↔
      ∀ q ∈ bound, violatesB hints q = false := by
  unfold findArgViolation
  rw [List.findSome?_eq_none_iff]
  constructor
  · intro h q hq
    have hx := h q hq
    unfold violatesB
    cases hl : List.lookup q.1 hints with
    | none => rfl
    | some a =>
      rw [hl] at hx
      by_cases hc : check q.2 a
      · simp [hc]
      · simp [hc] at hx
  · intro h q hq
    have hx := h q hq
    unfold violatesB at hx
    cases hl : List.lookup q.1 hints with
    | none => simp [hl]
    | some a =>
      rw [hl] at hx
      simp at hx
      simp [hl, hx]

/-- The wrapper loop returns the first failing bound argument: if every
argument before `(n, v)` passes and `(n, v)` fails, the violation found
is exactly `(n, a, v)`. -/
theorem findArgViolation_append (hints : List (String × Anno))
    (l1 : List (String × Value)) (n : String) (a : Anno) (v : Value)
    (l2 : List (String × Value))
    (hpass : ∀ q ∈ l1, violatesB hints q = false)
    (hlook : List.lookup n hints = some a) (hchk : check v a = false) :
    findArgViolation hints (l1 ++ (n, v) :: l2) = some (n, a, v) := by
  induction l1 with
  | nil =>
    simp only [List.nil_append]
    unfold findArgViolation
    rw [List.findSome?_cons]
    simp [hlook, hchk]
  | cons q l1 ih =>
    have hq := hpass q (by simp)
    have hrest : ∀ r ∈ l1, violatesB hints r = false :=
      fun r hr => hpass r (by simp [hr])
    simp only [List.cons_append]
    unfold findArgViolation
    rw [List.findSome?_cons]
    unfold violatesB at hq
    cases hl : List.lookup q.1 hints with
    | none =>
      simp only [hl]
      exact ih hrest
    | some a' =>
      rw [hl] at hq
      simp at hq
      simp only [hl, hq, if_true]
      exact ih hrest

/-- The violation search succeeds iff some bound argument violates its
annotation — a membership condition, independent of the order in which
the bound arguments are listed. -/
theorem findArgViolation_isSome_eq_any (hints : List (String × Anno))
    (bound : List (String × Value)) :
    (findArgViolation hints bound).isSome = bound.any (violatesB hints) := by
  induction bound with
  | nil => simp [findArgViolation]
  | cons q qs ih =>
    unfold findArgViolation at ih ⊢
    rw [List.findSome?_cons]
    cases hl : List.lookup q.1 hints with
    | none => simp [violatesB, hl, ih]
    | some a =>
      by_cases hc : check q.2 a
      · simp [violatesB, hl, hc, ih]
      · simp [violatesB, hl, hc]

/-- Successful binding yields the positional bindings followed by the
keyword bindings of the remaining parameters, in declaration order. -/
theorem sigBind_ok_shape (params : List Param) (pos : List Value)
    (kw : List (String × Value)) (sb : List (String × Value))
    (h : sigBind params pos kw = .ok sb) :
    sb = (params.zip pos).map (fun pv => (pv.1.name, pv.2)) ++
      (params.drop pos.length).filterMap
        (fun p => (List.lookup p.name kw).map (fun w => (p.name, w))) := by
  unfold sigBind at h
  split at h
  · cases h
  · split at h
    · cases h
    · split at h
      · cases h
      · split at h
        · cases h
        · exact (Except.ok.inj h).symm

/-- Splitting a successful `bind` + `apply_defaults` into its stages. -/
theorem bindApplyDefaults_ok (params : List Param) (pos : List Value)
    (kw : List (String × Value)) (bound : List (String × Value))
    (h : bindApplyDefaults params pos kw = .ok bound) :
    ∃ sb, sigBind params pos kw = .ok sb ∧ bound = applyDefaults params sb := by
  unfold bindApplyDefaults at h
  cases hsb : sigBind params pos kw with
  | error e =>
    rw [hsb] at h
    cases h
  | ok sb =>
    rw [hsb] at h
    simp only [Except.map] at h
    exact ⟨sb, rfl, (Except.ok.inj h).symm⟩

/-- A binding failure short-circuits the wrapper: the bind error is
re-raised unchanged and the state is untouched. -/
theorem wrapper_bindErr {σ : Type} (c : Contract σ) (pos : List Value)
    (kw : List (String × Value)) (s : σ) (e : PyErr)
    (h : bindApplyDefaults c.params pos kw = .error e) :
    wrapper c pos kw s = (.error e, s) := by
  simp only [wrapper, h]

/-- A found argument violation makes the wrapper raise the argument
`TypeError` without touching the state. -/
theorem wrapper_argErr {σ : Type} (c : Contract σ) (pos : List Value)
    (kw : List (String × Value)) (s : σ) (bound : List (String × Value))
    (n : String) (a : Anno) (v : Value)
    (hb : bindApplyDefaults c.params pos kw = .ok bound)
    (hv : findArgViolation c.hints bound = some (n, a, v)) :
    wrapper c pos kw s = (.error (.typeError (argMsg n a v)), s) := by
  simp only [wrapper, hb, hv]

/-- When all checks pass and a return annotation exists, the wrapper
invokes the computation and checks the result against it. -/
theorem wrapper_pass_ret {σ : Type} (c : Contract σ) (pos : List Value)
    (kw : List (String × Value)) (s : σ) (bound : List (String × Value))
    (r : Anno)
    (hb : bindApplyDefaults c.params pos kw = .ok bound)
    (hv : findArgViolation c.hints bound = none)
    (hr : List.lookup "return" c.hints = some r) :
    wrapper c pos kw s =
      (if check (c.impl bound s).1 r then (.ok (c.impl bound s).1, (c.impl bound s).2)
       else (.error (.typeError (retMsg r (c.impl bound s).1)), (c.impl bound s).2)) := by
  simp only [wrapper, hb, hv, hr]

/-- When all checks pass and no return annotation exists, the wrapper
returns the computation's result unchanged. -/
theorem wrapper_pass_noret {σ : Type} (c : Contract σ) (pos : List Value)
    (kw : List (String × Value)) (s : σ) (bound : List (String × Value))
    (hb : bindApplyDefaults c.params pos kw = .ok bound)
    (hv : findArgViolation c.hints bound = none)
    (hr : List.lookup "return" c.hints = none) :
    wrapper c pos kw s = (.ok (c.impl bound s).1, (c.impl bound s).2) := by
  simp only [wrapper, hb, hv, hr]

/-! ## Claims about the call contract enforcer -/

/-- Claim C2, counterexample: the claim requires the error surface to
let a caller tell the kinds `BindingError`, `ArgumentConformanceError`
and `ReturnConformanceError` apart, but the wrapper raises the single
builtin exception class `TypeError` for all three categories — a binding
failure, an argument conformance failure and a return conformance
failure produce errors of the identical exception class, so no kind
channel distinguishes them. -/
theorem c2_counterexample :
    (wrapper cBindDemo [] [] ()).1 = .error (.typeError (missingMsg "x")) ∧
      (wrapper cArgDemo [Value.vInt 1] [] ()).1 =
        .error (.typeError (argMsg "x" (Anno.cls .strC) (Value.vInt 1))) ∧
      (wrapper cRetDemo [] [] ()).1 =
        .error (.typeError (retMsg (Anno.cls .strC) (Value.vInt 0))) ∧
      exnClass (.typeError (missingMsg "x")) =
        exnClass (.typeError (argMsg "x" (Anno.cls .strC) (Value.vInt 1))) ∧
      exnClass (.typeError (argMsg "x" (Anno.cls .strC) (Value.vInt 1))) =
        exnClass (.typeError (retMsg (Anno.cls .strC) (Value.vInt 0))) := by
  refine ⟨rfl, ?_, ?_, rfl, rfl⟩
  · simp [wrapper, bindApplyDefaults, Except.map, sigBind, applyDefaults,
      cArgDemo, findArgViolation, List.findSome?_cons, check, isinst,
      isSubclass, typeName]
  · simp [wrapper, bindApplyDefaults, Except.map, sigBind, applyDefaults,
      cRetDemo, findArgViolation, check, isinst, isSubclass, typeName]

/-- Claim C2, amended: every failure of a wrapped call — binding,
argument conformance or return conformance — surfaces as the single
exception class `TypeError`; the three categories are distinguishable
only by their message (binding failures re-raise the binder's message,
argument failures carry `argMsg` naming the parameter, return failures
carry `retMsg`), not by distinct structured error kinds. -/
theorem c2_amended {σ : Type} (c : Contract σ) (pos : List Value)
    (kw : List (String × Value)) (s : σ) :
    (∀ e, (wrapper c pos kw s).1 = .error e → exnClass e = "TypeError") ∧
      (∀ e, bindApplyDefaults c.params pos kw = .error e →
        (wrapper c pos kw s).1 = .error e) ∧
      (∀ bound n a v, bindApplyDefaults c.params pos kw = .ok bound →
        findArgViolation c.hints bound = some (n, a, v) →
        (wrapper c pos kw s).1 = .error (.typeError (argMsg n a v))) ∧
      (∀ bound r, bindApplyDefaults c.params pos kw = .ok bound →
        findArgViolation c.hints bound = none →
        List.lookup "return" c.hints = some r →
        check (c.impl bound s).1 r = false →
        (wrapper c pos kw s).1 =
          .error (.typeError (retMsg r (c.impl bound s).1))) := by
  refine ⟨?_, ?_, ?_, ?_⟩
  · intro e _
    cases e
    rfl
  · intro e h
    rw [wrapper_bindErr c pos kw s e h]
  · intro bound n a v hb hv
    rw [wrapper_argErr c pos kw s bound n a v hb hv]
  · intro bound r hb hv hr hc
    rw [wrapper_pass_ret c pos kw s bound r hb hv hr, hc]
    simp

/-- Witness for C2 (amended) at a concrete input: the bad argument `1`
against `str` produces the argument-conformance `TypeError`, whose
exception class is `TypeError`. -/
theorem c2_amended_witness :
    exnClass (.typeError (argMsg "x" (Anno.cls .strC) (Value.vInt 1))) =
        "TypeError" ∧
      (wrapper cArgDemo [Value.vInt 1] [] ()).1 =
        .error (.typeError (argMsg "x" (Anno.cls .strC) (Value.vInt 1))) := by
  refine ⟨rfl, ?_⟩
  exact (c2_amended cArgDemo [Value.vInt 1] [] ()).2.2.1
    [("x", Value.vInt 1)] "x" (Anno.cls .strC) (Value.vInt 1) rfl
    (by simp [findArgViolation, List.findSome?_cons, cArgDemo,
      check, isinst, isSubclass, typeName])

/-- Claim C3: per wrapped call, the underlying computation runs exactly
once when binding and all argument checks succeed (even if the return
check then fails) and zero times otherwise — so at most once, never
speculatively, and with no side effect when any argument check fails
(for an arbitrary state type the state is returned untouched). -/
theorem c3_invoked_once_after_checks (params : List Param)
    (hints : List (String × Anno)) (g : List (String × Value) → Value)
    (pos : List Value) (kw : List (String × Value)) :
    ((wrapper (counting params hints g) pos kw 0).2 =
      if checksPass params hints pos kw then 1 else 0) ∧
      (checksPass params hints pos kw = false →
        ∀ (σ : Type) (impl : List (String × Value) → σ → Value × σ) (s : σ),
          (wrapper ⟨params, hints, impl⟩ pos kw s).2 = s) := by
  constructor
  · cases hb : bindApplyDefaults params pos kw with
    | error e =>
      rw [wrapper_bindErr (counting params hints g) pos kw 0 e hb]
      simp [checksPass, hb]
    | ok bound =>
      cases hv : findArgViolation hints bound with
      | some nav =>
        obtain ⟨n, a, v⟩ := nav
        rw [wrapper_argErr (counting params hints g) pos kw 0 bound n a v hb hv]
        simp [checksPass, hb, hv]
      | none =>
        cases hr : List.lookup "return" hints with
        | some r =>
          rw [wrapper_pass_ret (counting params hints g) pos kw 0 bound r hb hv hr]
          split <;> simp [checksPass, hb, hv, counting]
        | none =>
          rw [wrapper_pass_noret (counting params hints g) pos kw 0 bound hb hv hr]
          simp [checksPass, hb, hv, counting]
  · intro hcp σ impl s
    cases hb : bindApplyDefaults params pos kw with
    | error e =>
      rw [wrapper_bindErr ⟨params, hints, impl⟩ pos kw s e hb]
    | ok bound =>
      cases hv : findArgViolation hints bound with
      | some nav =>
        obtain ⟨n, a, v⟩ := nav
        rw [wrapper_argErr ⟨params, hints, impl⟩ pos kw s bound n a v hb hv]
      | none =>
        exfalso
        unfold checksPass at hcp
        rw [hb] at hcp
        simp [hv] at hcp

/-- Witness for C3 at concrete inputs: with a failing argument check the
computation is not invoked (count stays `0`, and an arbitrary starting
state `3` is returned untouched). -/
theorem c3_invoked_once_after_checks_witness :
    (wrapper (counting [⟨"x", none⟩] [("x", Anno.cls .strC)]
        (fun _ => Value.vNone)) [Value.vInt 1] [] 0).2 = 0 ∧
      (wrapper (⟨[⟨"x", none⟩], [("x", Anno.cls .strC)],
          fun _ (s : Int) => (Value.vNone, s + 5)⟩ : Contract Int)
        [Value.vInt 1] [] 3).2 = 3 := by
  have hfail : checksPass [⟨"x", none⟩] [("x", Anno.cls .strC)]
      [Value.vInt 1] [] = false := by
    simp [checksPass, bindApplyDefaults, Except.map, sigBind, applyDefaults,
      findArgViolation, List.findSome?_cons, check, isinst, isSubclass, typeName]
  constructor
  · rw [(c3_invoked_once_after_checks [⟨"x", none⟩] [("x", Anno.cls .strC)]
      (fun _ => Value.vNone) [Value.vInt 1] []).1, hfail]
    rfl
  · exact (c3_invoked_once_after_checks [⟨"x", none⟩] [("x", Anno.cls .strC)]
      (fun _ => Value.vNone) [Value.vInt 1] []).2 hfail Int _ 3

/-- Claim C8: the wrapper examines the bound arguments in declaration
order — if everything before `(n, v)` passes and `(n, v)` fails, the
raised violation names exactly `n` with its descriptor and value — while
whether a violation exists at all is a pure membership condition over
the bound arguments, independent of their order. -/
theorem c8_first_failure_named {σ : Type} (c : Contract σ) (pos : List Value)
    (kw : List (String × Value)) (s : σ) :
    (∀ (l1 : List (String × Value)) n a v (l2 : List (String × Value)),
      bindApplyDefaults c.params pos kw = .ok (l1 ++ (n, v) :: l2) →
      (∀ q ∈ l1, violatesB c.hints q = false) →
      List.lookup n c.hints = some a → check v a = false →
      (wrapper c pos kw s).1 = .error (.typeError (argMsg n a v))) ∧
      ∀ bound : List (String × Value),
        (findArgViolation c.hints bound).isSome = bound.any (violatesB c.hints) := by
  constructor
  · intro l1 n a v l2 hb hpassed hlook hchk
    have hv := findArgViolation_append c.hints l1 n a v l2 hpassed hlook hchk
    rw [wrapper_argErr c pos kw s _ n a v hb hv]
  · exact findArgViolation_isSome_eq_any c.hints

/-- Witness for C8 at a concrete input: calling `f(x: int, y: str)` with
`(1, 2)` passes `x` and fails `y`, and the raised violation names `y`
(the first failing parameter in declaration order). -/
theorem c8_first_failure_named_witness :
    (wrapper cTwoDemo [Value.vInt 1, Value.vInt 2] [] ()).1 =
        .error (.typeError (argMsg "y" (Anno.cls .strC) (Value.vInt 2))) ∧
      violatesB cTwoDemo.hints ("x", Value.vInt 1) = false := by
  constructor
  · exact (c8_first_failure_named cTwoDemo [Value.vInt 1, Value.vInt 2] [] ()).1
      [("x", Value.vInt 1)] "y" (Anno.cls .strC) (Value.vInt 2) [] rfl
      (by
        intro q hq
        simp only [List.mem_singleton] at hq
        subst hq
        simp [violatesB, cTwoDemo, check, isinst, isSubclass, typeName])
      rfl
      (by simp [check, isinst, isSubclass, typeName])
  · simp [violatesB, cTwoDemo, check, isinst, isSubclass, typeName]

/-- Claim C9: a declared default is itself conformance-checked — when
the caller supplies no value for a parameter that has a default, the
default is bound by `apply_defaults` and checked like any argument, so a
default violating its own annotation makes the call raise the argument
`TypeError`. -/
theorem c9_default_checked {σ : Type} (c : Contract σ) (pos : List Value)
    (kw : List (String × Value)) (s : σ) (p : Param) (d : Value) (A : Anno)
    (bound : List (String × Value))
    (hp : p ∈ c.params) (hd : p.default = some d)
    (hnotpos : ∀ q ∈ c.params.zip pos, q.1.name ≠ p.name)
    (hnkw : List.lookup p.name kw = none)
    (hbind : bindApplyDefaults c.params pos kw = .ok bound)
    (hanno : List.lookup p.name c.hints = some A)
    (hfail : check d A = false) :
    (p.name, d) ∈ bound ∧
      ∃ n a v, (wrapper c pos kw s).1 = .error (.typeError (argMsg n a v)) := by
  obtain ⟨sb, hsb, hbd⟩ := bindApplyDefaults_ok _ _ _ _ hbind
  have hshape := sigBind_ok_shape _ _ _ _ hsb
  have hnone : List.lookup p.name sb = none := by
    rw [lookup_eq_none_iff]
    intro q hq
    rw [hshape] at hq
    rcases List.mem_append.mp hq with hq1 | hq2
    · obtain ⟨pv, hpv, rfl⟩ := List.mem_map.mp hq1
      exact fun he => hnotpos pv hpv he.symm
    · obtain ⟨p', hp', hmap⟩ := List.mem_filterMap.mp hq2
      obtain ⟨w, hw, rfl⟩ := Option.map_eq_some'.mp hmap
      intro he
      rw [he] at hnkw
      rw [hnkw] at hw
      cases hw
  have hmem : (p.name, d) ∈ bound := by
    rw [hbd]
    unfold applyDefaults
    refine List.mem_filterMap.mpr ⟨p, hp, ?_⟩
    rw [hnone, hd]
    rfl
  refine ⟨hmem, ?_⟩
  have hviol : violatesB c.hints (p.name, d) = true := by
    unfold violatesB
    rw [hanno]
    simp [hfail]
  cases hv : findArgViolation c.hints bound with
  | none =>
    rw [findArgViolation_eq_none_iff] at hv
    rw [hv _ hmem] at hviol
    cases hviol
  | some nav =>
    obtain ⟨n, a, v⟩ := nav
    exact ⟨n, a, v, by rw [wrapper_argErr c pos kw s bound n a v hbind hv]⟩

/-- Witness for C9 at a concrete input: `def f(x: int = "oops")` called
with no arguments binds the default and raises the argument `TypeError`
naming `x`. -/
theorem c9_default_checked_witness :
    ("x", Value.vStr "oops") ∈ ([("x", Value.vStr "oops")] : List (String × Value)) ∧
      (wrapper cDefDemo [] [] ()).1 =
        .error (.typeError (argMsg "x" (Anno.cls .intC) (Value.vStr "oops"))) := by
  have h := c9_default_checked cDefDemo [] [] ()
    ⟨"x", some (Value.vStr "oops")⟩ (Value.vStr "oops") (Anno.cls .intC)
    [("x", Value.vStr "oops")]
    (by simp [cDefDemo]) rfl (by simp) rfl rfl rfl
    (by simp [check, isinst, isSubclass, typeName])
  refine ⟨h.1, ?_⟩
  simp [wrapper, bindApplyDefaults, Except.map, sigBind, applyDefaults,
    cDefDemo, findArgViolation, List.findSome?_cons, check, isinst,
    isSubclass, typeName]

/-- Claim C10: a parameter without an annotation is never checked — any
bound value passes, since only annotated parameters can produce a
violation — and when no `"return"` annotation exists the computation's
result is passed through unchecked and unchanged. -/
theorem c10_unannotated_unchecked {σ : Type} (c : Contract σ)
    (pos : List Value) (kw : List (String × Value)) (s : σ)
    (bound : List (String × Value))
    (hbind : bindApplyDefaults c.params pos kw = .ok bound)
    (hpass : ∀ q ∈ bound, ∀ a, List.lookup q.1 c.hints = some a →
      check q.2 a = true)
    (hret : List.lookup "return" c.hints = none) :
    wrapper c pos kw s = (.ok (c.impl bound s).1, (c.impl bound s).2) := by
  have hv : findArgViolation c.hints bound = none := by
    rw [findArgViolation_eq_none_iff]
    intro q hq
    unfold violatesB
    cases hl : List.lookup q.1 c.hints with
    | none => rfl
    | some a => simp [hpass q hq a hl]
  exact wrapper_pass_noret c pos kw s bound hbind hv hret

/-- Witness for C10 at a concrete input: the fully unannotated `f(x)`
accepts any value and its result is returned unchanged. -/
theorem c10_unannotated_unchecked_witness :
    wrapper cNoAnnoDemo [Value.vStr "anything"] [] () =
      (.ok (Value.vTuple [Value.vStr "anything"]), ()) := by
  have h := c10_unannotated_unchecked cNoAnnoDemo [Value.vStr "anything"] [] ()
    [("x", Value.vStr "anything")] rfl (by simp [cNoAnnoDemo]) rfl
  simpa [cNoAnnoDemo] using h

end RuntimeCheck
